import Mathlib

/-!
Shallow embedding of the Assignment and Progress Engine of the habilitat
repository (backend service OnboardingService in app/onboarding/service.py,
shown in src/modulo-5-onboarding.md, plus the client-side sequencing
predicate isModuleLocked in
src/frontend/src/onboarding/pages/AssignmentPage.tsx).

Conventions of the embedding:
- timestamps (datetime.utcnow) are modelled as a Nat parameter `now`
  supplied to each operation; every utcnow call inside one operation
  yields that same value;
- SQLAlchemy rows become structures; only the columns the engine reads
  or writes are modelled (presentational columns such as title,
  description, content_text are omitted);
- the Python float expression int((a / b) * 100) is modelled bit-exactly
  by pyIntTimes100: binary64 round-to-nearest-even division, binary64
  round-to-nearest-even multiplication by 100, then truncation toward
  zero, implemented over unbounded integers. The exponent is unbounded,
  so the model coincides with IEEE binary64 (and CPython) whenever the
  quotient neither overflows nor falls into the subnormal range, which
  covers every count/length pair the engine can produce. Note this is
  NOT plain floor division: int((29 / 50) * 100) is 57 while
  29 * 100 / 50 is 58;
- exceptions become an error type: NotFoundException is notFound,
  ForbiddenException is forbidden, ValidationException is validation and
  AlreadyExistsException (HTTP 409 CONFLICT, defined in
  app/core/exceptions.py but never raised by the engine) is conflict;
- a query .first() followed by mutation of the returned row is modelled
  by find? and by updateFirst, both acting on the first matching row.
-/

namespace Habilitat

/-- OnboardingStatus from app/core/enums.py. -/
inductive Status where
  | not_started
  | in_progress
  | completed
  | expired
  deriving DecidableEq, Repr

/-- One entry of quiz_data["questions"]; only the correct_answer key is
read by the engine (question, type, options are presentational). -/
structure Question where
  correct_answer : Option String
  deriving DecidableEq, Repr

/-- OnboardingModule row (models.py); the fields the engine reads.
quiz_questions and passing_score model quiz_data["questions"] and
quiz_data["passing_score"]; passing_score none means the key is absent
(the source then defaults to 70 via dict.get). -/
structure OnboardingModule where
  id : Nat
  order : Nat
  is_required : Bool
  content_type : String
  quiz_questions : List Question
  passing_score : Option Nat
  deriving DecidableEq, Repr

/-- OnboardingFlow row with its modules relationship, which the ORM
orders by OnboardingModule.order. -/
structure Flow where
  id : Nat
  modules : List OnboardingModule
  deriving DecidableEq, Repr

/-- OnboardingAssignment row (models.py). Column defaults:
status NOT_STARTED, completion_percentage 0, assigned_at utcnow. -/
structure Assignment where
  flow_id : Nat
  user_id : Nat
  status : Status
  assigned_at : Nat
  started_at : Option Nat
  completed_at : Option Nat
  due_date : Option Nat
  completion_percentage : Nat
  deriving DecidableEq, Repr

/-- ModuleProgress row (models.py). Column defaults: is_completed false,
time_spent_minutes 0. time_spent_minutes is an Int because neither the
column nor CompleteModuleRequest or SubmitQuizRequest constrains it to
be non-negative. -/
structure ModuleProgress where
  module_id : Nat
  is_completed : Bool
  completed_at : Option Nat
  time_spent_minutes : Int
  quiz_score : Option Nat
  quiz_passed : Option Bool
  notes : Option String
  deriving DecidableEq, Repr

/-- Error kinds of app/core/exceptions.py that are relevant here. -/
inductive Err where
  | notFound
  | forbidden
  | validation
  | conflict
  deriving DecidableEq, Repr

/-- The state an engine operation touches: one assignment, its flow
relationship (live, not snapshotted) and its module_progress rows. -/
structure AState where
  flow : Flow
  assignment : Assignment
  progress : List ModuleProgress
  deriving DecidableEq, Repr

/-- schemas.OnboardingAssignmentCreate. -/
structure AssignmentCreate where
  flow_id : Nat
  user_id : Nat
  due_date : Option Nat
  deriving DecidableEq, Repr

/-- schemas.CompleteModuleRequest; both fields optional, no bound on
time_spent_minutes. -/
structure CompleteModuleRequest where
  notes : Option String
  time_spent_minutes : Option Int
  deriving DecidableEq, Repr

/-- schemas.SubmitQuizRequest; answers is a dict keyed by the string of
the question index, modelled with Nat keys. -/
structure SubmitQuizRequest where
  answers : List (Nat × String)
  time_spent_minutes : Option Int
  deriving DecidableEq, Repr

instance {ε α : Type} [DecidableEq ε] [DecidableEq α] :
    DecidableEq (Except ε α) := fun a b =>
  match a, b with
  | .ok x, .ok y =>
    if h : x = y then isTrue (by rw [h])
    else isFalse (by intro hc; cases hc; exact h rfl)
  | .error x, .error y =>
    if h : x = y then isTrue (by rw [h])
    else isFalse (by intro hc; cases hc; exact h rfl)
  | .ok _, .error _ => isFalse (by intro hc; cases hc)
  | .error _, .ok _ => isFalse (by intro hc; cases hc)

/-- Update the first element satisfying f (the row a query .first()
returns), leave the rest unchanged. -/
def updateFirst (f : α → Bool) (g : α → α) : List α → List α
  | [] => []
  | p :: ps => if f p then g p :: ps else p :: updateFirst f g ps

/-- Round the positive rational num/den to the nearest integer, ties
to even (the IEEE-754 rounding of a scaled significand). -/
def rnEven (num den : Nat) : Nat :=
  let q := num / den
  let r := num % den
  if 2 * r < den then q
  else if 2 * r > den then q + 1
  else if q % 2 = 0 then q else q + 1

/-- Fuel-driven floor of log2, structurally recursive so that concrete
evaluations reduce in the kernel. -/
def log2Fuel : Nat → Nat → Nat
  | 0, _ => 0
  | fuel + 1, n => if 2 ≤ n then log2Fuel fuel (n / 2) + 1 else 0

def natLog2 (n : Nat) : Nat := log2Fuel n n

/-- The binary64 value of m / n for positive m, n, as a pair
(significand, exponent) denoting K * 2 ^ e: the exact quotient is
scaled into [2^52, 2^53) and rounded to the nearest integer, ties to
even - exactly the correctly rounded IEEE division, with an unbounded
exponent (no overflow or subnormals, which no list-length quotient of
the engine reaches). -/
def floatDiv (m n : Nat) : Nat × Int :=
  let la := natLog2 m
  let lb := natLog2 n
  let E : Int := if n * 2 ^ la ≤ m * 2 ^ lb then (la : Int) - lb
    else (la : Int) - lb - 1
  let sh : Int := 52 - E
  let K := if 0 ≤ sh then rnEven (m * 2 ^ sh.toNat) n
    else rnEven m (n * 2 ^ (-sh).toNat)
  (K, E - 52)

/-- Round the positive integer M to 53 significant bits, nearest, ties
to even; returns the rounded significand and the exponent shift. -/
def round53 (M : Nat) : Nat × Nat :=
  let l := natLog2 M
  if l ≤ 52 then (M, 0)
  else
    let sh := l - 52
    let den := 2 ^ sh
    let q := M / den
    let r := M % den
    let K := if 2 * r < den then q
      else if 2 * r > den then q + 1
      else if q % 2 = 0 then q else q + 1
    (K, sh)

/-- int((m / n) * 100) exactly as CPython evaluates it on binary64
floats: correctly rounded division, correctly rounded multiplication
by 100, truncation toward zero. Checked against CPython on every pair
with n up to 120 and on random and near-integer pairs with n up to
10^9; e.g. pyIntTimes100 29 50 = 57 although 29 * 100 / 50 = 58. The
n = 0 case is never reached by the engine (both call sites guard the
zero-length case first). -/
def pyIntTimes100 (m n : Nat) : Nat :=
  if m = 0 then 0
  else if n = 0 then 0
  else
    let v := floatDiv m n
    let w := round53 (100 * v.1)
    let e2 : Int := v.2 + (w.2 : Int)
    if 0 ≤ e2 then w.1 * 2 ^ e2.toNat else w.1 / 2 ^ (-e2).toNat

/-- completed_count of _update_assignment_progress:
sum(1 for p in assignment.module_progress if p.is_completed). -/
def countCompleted (ps : List ModuleProgress) : Nat :=
  (ps.filter (fun p => p.is_completed)).length

/-- The percentage _update_assignment_progress stores: 100 for an
empty flow, otherwise int((completed/total) * 100) evaluated in
binary64 floats - a truncation that is neither round nor, at inputs
such as 29 of 50, exact floor. -/
def computedPct (flow : Flow) (ps : List ModuleProgress) : Nat :=
  if flow.modules.length = 0 then 100
  else pyIntTimes100 (countCompleted ps) flow.modules.length

/-- required_completed of _update_assignment_progress: every required
module has a progress row with matching module_id and is_completed. -/
def requiredCompleted (flow : Flow) (ps : List ModuleProgress) : Bool :=
  (flow.modules.filter (fun m => m.is_required)).all
    (fun m => ps.any (fun p => p.module_id == m.id && p.is_completed))

/-- OnboardingService._update_assignment_progress. Note that whenever
required_completed holds it stamps completed_at with the current time,
even if the assignment was already COMPLETED. -/
def updateAssignmentProgress (flow : Flow) (a : Assignment)
    (ps : List ModuleProgress) (now : Nat) : Assignment :=
  if flow.modules.length = 0 then
    { a with completion_percentage := 100, status := .completed,
             completed_at := some now }
  else
    let pct := pyIntTimes100 (countCompleted ps) flow.modules.length
    let a1 := { a with completion_percentage := pct }
    if requiredCompleted flow ps then
      { a1 with status := .completed, completed_at := some now }
    else if pct > 0 then
      { a1 with status := .in_progress }
    else a1

/-- The started_at block shared by complete_module and submit_quiz:
if not assignment.started_at, set it and move to IN_PROGRESS. -/
def startAssignment (a : Assignment) (now : Nat) : Assignment :=
  if a.started_at.isNone then
    { a with started_at := some now, status := .in_progress }
  else a

/-- The guard if data.notes: progress.notes = data.notes. Python
truthiness: None and the empty string are falsy and leave the stored
notes alone. -/
def applyNotes (reqNotes : Option String) (p : ModuleProgress) :
    ModuleProgress :=
  match reqNotes with
  | some n => if n ≠ "" then { p with notes := some n } else p
  | none => p

/-- The guard if data.time_spent_minutes: progress.time_spent_minutes =
value, shared by complete_module and submit_quiz. Python truthiness:
None and 0 are falsy and leave the stored value alone; any other value,
including a negative one, replaces it (no accumulation). -/
def applyTime (reqTime : Option Int) (p : ModuleProgress) :
    ModuleProgress :=
  match reqTime with
  | some t => if t ≠ 0 then { p with time_spent_minutes := t } else p
  | none => p

/-- The row mutation of complete_module: mark completed, stamp
completed_at, then the notes and time_spent guards. -/
def completedRow (now : Nat) (data : CompleteModuleRequest)
    (p : ModuleProgress) : ModuleProgress :=
  applyTime data.time_spent_minutes
    (applyNotes data.notes
      { p with is_completed := true, completed_at := some now })

/-- OnboardingService.assign_flow, after get_flow has resolved the flow.
The duplicate check raises ValidationException (not the 409
AlreadyExistsException) when any non-COMPLETED assignment for the same
(flow_id, user_id) exists. On success the new Assignment carries the
column defaults and one fresh ModuleProgress row is created per module
of the flow; _update_assignment_progress is never invoked here. -/
def assign_flow (flow : Flow) (dbAssignments : List Assignment)
    (data : AssignmentCreate) (now : Nat) :
    Except Err (Assignment × List ModuleProgress) :=
  let existing := dbAssignments.filter (fun a =>
    a.flow_id == data.flow_id && a.user_id == data.user_id &&
    !(a.status == Status.completed))
  if existing.isEmpty then
    .ok (⟨data.flow_id, data.user_id, .not_started, now, none, none,
          data.due_date, 0⟩,
         flow.modules.map (fun m =>
           ⟨m.id, false, none, 0, none, none, none⟩))
  else .error .validation

/-- OnboardingService.complete_module. There is no sequencing check of
any kind here: any existing progress row of the caller can be marked
completed regardless of the state of earlier modules. -/
def complete_module (s : AState) (module_id user_id : Nat)
    (data : CompleteModuleRequest) (now : Nat) : Except Err AState :=
  match s.progress.find? (fun p => p.module_id == module_id) with
  | none => .error .notFound
  | some _ =>
    if !(s.assignment.user_id == user_id) then .error .forbidden
    else
      let ps := updateFirst (fun p => p.module_id == module_id)
        (completedRow now data) s.progress
      let a := startAssignment s.assignment now
      .ok ⟨s.flow, updateAssignmentProgress s.flow a ps now, ps⟩

/-- correct_count of submit_quiz: walk the questions with their index,
compare data.answers.get(str(i)) with question.get("correct_answer")
(both sides Option String; two absent values compare equal, as None ==
None does in Python). -/
def correctCount (questions : List Question)
    (answers : List (Nat × String)) : Nat :=
  ((questions.enum).filter (fun iq =>
    (answers.find? (fun kv => kv.1 == iq.1)).map (fun kv => kv.2)
      == iq.2.correct_answer)).length

/-- score of submit_quiz: int((correct_count / len(questions)) * 100)
if questions else 0, the binary64 truncation - neither round nor, at
inputs such as 29 of 50, exact floor. -/
def quizScore (m : OnboardingModule)
    (answers : List (Nat × String)) : Nat :=
  if m.quiz_questions.isEmpty then 0
  else pyIntTimes100 (correctCount m.quiz_questions answers)
    m.quiz_questions.length

/-- passed of submit_quiz: score >= quiz_data.get("passing_score", 70).
A zero-question quiz has score 0 and therefore passes exactly when the
configured passing_score is 0. -/
def quizPassed (m : OnboardingModule)
    (answers : List (Nat × String)) : Bool :=
  m.passing_score.getD 70 ≤ quizScore m answers

/-- The row mutation of submit_quiz: always overwrite quiz_score and
quiz_passed; mark completed only on a pass (a failed submission never
resets is_completed); then the time_spent guard. -/
def quizRow (score : Nat) (passed : Bool) (now : Nat)
    (data : SubmitQuizRequest) (p : ModuleProgress) : ModuleProgress :=
  applyTime data.time_spent_minutes
    (let p1 :=
      { p with quiz_score := some score, quiz_passed := some passed }
     if passed then
       { p1 with is_completed := true, completed_at := some now }
     else p1)

/-- OnboardingService.submit_quiz. The module is resolved through the
progress.module relationship, whose non-null foreign key always
resolves in the source; a failed lookup is mapped to notFound and is
unreachable for states produced by assign_flow. The content_type check
precedes the ownership check, as in the source. Like complete_module,
this has no sequencing check, and it runs the started_at block and the
aggregator even when the submission fails. -/
def submit_quiz (s : AState) (module_id user_id : Nat)
    (data : SubmitQuizRequest) (now : Nat) : Except Err AState :=
  match s.progress.find? (fun p => p.module_id == module_id) with
  | none => .error .notFound
  | some _ =>
    match s.flow.modules.find? (fun m => m.id == module_id) with
    | none => .error .notFound
    | some m =>
      if !(m.content_type == "quiz") then .error .validation
      else if !(s.assignment.user_id == user_id) then .error .forbidden
      else
        let ps := updateFirst (fun p => p.module_id == module_id)
          (quizRow (quizScore m data.answers) (quizPassed m data.answers)
            now data) s.progress
        let a := startAssignment s.assignment now
        .ok ⟨s.flow, updateAssignmentProgress s.flow a ps now, ps⟩

/-- The module shape the frontend AssignmentPage reads. -/
structure FEModule where
  id : Nat
  order_index : Nat
  deriving DecidableEq, Repr

/-- The progress shape the frontend AssignmentPage reads; status is the
string field it compares with the literal completed. -/
structure FEModuleProgress where
  module_id : Nat
  status : String
  deriving DecidableEq, Repr

/-- isModuleLocked of AssignmentPage.tsx, over modules already sorted by
order_index: index 0 is never locked; otherwise locked unless the
progress row of the module at index-1 has status completed. This is the
only sequencing check in the repository. -/
def isModuleLocked (modules : List FEModule)
    (progress : List FEModuleProgress) (index : Nat) : Bool :=
  if index == 0 then false
  else
    match modules[index - 1]? with
    | none => true
    | some previousModule =>
      match progress.find? (fun p => p.module_id == previousModule.id) with
      | none => true
      | some p => !(p.status == "completed")

/-! ### Observers and reachability -/

/-- Whether the progress row a query for module mid returns is
completed (false when no row exists). -/
def rowCompleted (ps : List ModuleProgress) (mid : Nat) : Bool :=
  match ps.find? (fun p => p.module_id == mid) with
  | some p => p.is_completed
  | none => false

/-- The row a query for module mid returns. -/
def rowOf (ps : List ModuleProgress) (mid : Nat) : Option ModuleProgress :=
  ps.find? (fun p => p.module_id == mid)

/-- The stored time_spent_minutes of the row a query for module mid
returns. -/
def rowTime (ps : List ModuleProgress) (mid : Nat) : Option Int :=
  (rowOf ps mid).map (fun p => p.time_spent_minutes)

/-- Extract the state of a successful operation, with a fallback for
the error case; used to write closed statements about chained calls. -/
def getOk (r : Except Err AState) (d : AState) : AState :=
  match r with
  | .ok s => s
  | .error _ => d

/-- States of one assignment that the engine itself can produce: a
fresh assign_flow result followed by any sequence of complete_module
and submit_quiz calls. -/
inductive Reachable : AState → Prop where
  | init (flow : Flow) (db : List Assignment) (data : AssignmentCreate)
      (now : Nat) (a : Assignment) (ps : List ModuleProgress)
      (h : assign_flow flow db data now = .ok (a, ps)) :
      Reachable ⟨flow, a, ps⟩
  | completeStep (s : AState) (mid uid : Nat)
      (data : CompleteModuleRequest) (now : Nat) (s' : AState)
      (hs : Reachable s)
      (h : complete_module s mid uid data now = .ok s') : Reachable s'
  | quizStep (s : AState) (mid uid : Nat) (data : SubmitQuizRequest)
      (now : Nat) (s' : AState) (hs : Reachable s)
      (h : submit_quiz s mid uid data now = .ok s') : Reachable s'

/-- Shape of a fresh assignment as assign_flow creates it. -/
def InitOK (s : AState) : Prop :=
  s.assignment.status = .not_started ∧
  s.assignment.started_at = none ∧
  s.assignment.completion_percentage = 0 ∧
  ∀ p ∈ s.progress, p.is_completed = false

/-- Shape of an assignment right after _update_assignment_progress ran
at the end of a mutation. -/
def AggOK (s : AState) : Prop :=
  s.assignment.completion_percentage = computedPct s.flow s.progress ∧
  (s.assignment.status = .completed ↔
    requiredCompleted s.flow s.progress = true) ∧
  (s.assignment.status = .in_progress ∨
    s.assignment.status = .completed) ∧
  s.assignment.started_at.isSome = true

/-! ### Row mutation lemmas -/

theorem applyNotes_module_id (r : Option String) (p : ModuleProgress) :
    (applyNotes r p).module_id = p.module_id := by
  cases r with
  | none => rfl
  | some n =>
    simp only [applyNotes]
    split_ifs <;> rfl

theorem applyNotes_is_completed (r : Option String) (p : ModuleProgress) :
    (applyNotes r p).is_completed = p.is_completed := by
  cases r with
  | none => rfl
  | some n =>
    simp only [applyNotes]
    split_ifs <;> rfl

theorem applyNotes_time (r : Option String) (p : ModuleProgress) :
    (applyNotes r p).time_spent_minutes = p.time_spent_minutes := by
  cases r with
  | none => rfl
  | some n =>
    simp only [applyNotes]
    split_ifs <;> rfl

theorem applyTime_module_id (r : Option Int) (p : ModuleProgress) :
    (applyTime r p).module_id = p.module_id := by
  cases r with
  | none => rfl
  | some t =>
    simp only [applyTime]
    split_ifs <;> rfl

theorem applyTime_is_completed (r : Option Int) (p : ModuleProgress) :
    (applyTime r p).is_completed = p.is_completed := by
  cases r with
  | none => rfl
  | some t =>
    simp only [applyTime]
    split_ifs <;> rfl

theorem applyTime_quiz_score (r : Option Int) (p : ModuleProgress) :
    (applyTime r p).quiz_score = p.quiz_score := by
  cases r with
  | none => rfl
  | some t =>
    simp only [applyTime]
    split_ifs <;> rfl

theorem applyTime_quiz_passed (r : Option Int) (p : ModuleProgress) :
    (applyTime r p).quiz_passed = p.quiz_passed := by
  cases r with
  | none => rfl
  | some t =>
    simp only [applyTime]
    split_ifs <;> rfl

theorem applyTime_time (r : Option Int) (p : ModuleProgress) :
    (applyTime r p).time_spent_minutes =
      match r with
      | some t => if t ≠ 0 then t else p.time_spent_minutes
      | none => p.time_spent_minutes := by
  cases r with
  | none => rfl
  | some t =>
    simp only [applyTime]
    split_ifs with h <;> simp [h]

theorem completedRow_module_id (now : Nat) (data : CompleteModuleRequest)
    (p : ModuleProgress) :
    (completedRow now data p).module_id = p.module_id := by
  unfold completedRow
  rw [applyTime_module_id, applyNotes_module_id]

theorem completedRow_is_completed (now : Nat)
    (data : CompleteModuleRequest) (p : ModuleProgress) :
    (completedRow now data p).is_completed = true := by
  unfold completedRow
  rw [applyTime_is_completed, applyNotes_is_completed]

theorem quizRow_module_id (score : Nat) (passed : Bool) (now : Nat)
    (data : SubmitQuizRequest) (p : ModuleProgress) :
    (quizRow score passed now data p).module_id = p.module_id := by
  unfold quizRow
  rw [applyTime_module_id]
  cases passed <;> rfl

theorem quizRow_is_completed (score : Nat) (passed : Bool) (now : Nat)
    (data : SubmitQuizRequest) (p : ModuleProgress) :
    (quizRow score passed now data p).is_completed =
      (p.is_completed || passed) := by
  unfold quizRow
  rw [applyTime_is_completed]
  cases passed <;> simp

theorem quizRow_quiz_score (score : Nat) (passed : Bool) (now : Nat)
    (data : SubmitQuizRequest) (p : ModuleProgress) :
    (quizRow score passed now data p).quiz_score = some score := by
  unfold quizRow
  rw [applyTime_quiz_score]
  cases passed <;> rfl

theorem quizRow_quiz_passed (score : Nat) (passed : Bool) (now : Nat)
    (data : SubmitQuizRequest) (p : ModuleProgress) :
    (quizRow score passed now data p).quiz_passed = some passed := by
  unfold quizRow
  rw [applyTime_quiz_passed]
  cases passed <;> rfl

theorem quizRow_time (score : Nat) (passed : Bool) (now : Nat)
    (data : SubmitQuizRequest) (p : ModuleProgress) :
    (quizRow score passed now data p).time_spent_minutes =
      (applyTime data.time_spent_minutes p).time_spent_minutes := by
  unfold quizRow
  rw [applyTime_time, applyTime_time]
  cases data.time_spent_minutes <;> cases passed <;> rfl

theorem completedRow_time (now : Nat) (data : CompleteModuleRequest)
    (p : ModuleProgress) :
    (completedRow now data p).time_spent_minutes =
      (applyTime data.time_spent_minutes p).time_spent_minutes := by
  unfold completedRow
  rw [applyTime_time, applyTime_time, applyNotes_time]

/-! ### updateFirst lemmas -/

theorem updateFirst_any_eq {α : Type} {f : α → Bool} {g : α → α}
    {Q : α → Bool} (hg : ∀ p, Q (g p) = Q p) :
    ∀ ps : List α, (updateFirst f g ps).any Q = ps.any Q
  | [] => rfl
  | p :: ps => by
    by_cases h : f p = true
    · simp [updateFirst, h, hg]
    · simp [updateFirst, h, updateFirst_any_eq hg ps]

theorem updateFirst_any_mono {α : Type} {f : α → Bool} {g : α → α}
    {Q : α → Bool} (hg : ∀ p, Q p = true → Q (g p) = true) :
    ∀ ps : List α, ps.any Q = true → (updateFirst f g ps).any Q = true
  | p :: ps, h => by
    rw [List.any_cons] at h
    by_cases hf : f p = true
    · rw [updateFirst, if_pos hf, List.any_cons]
      rcases Bool.or_eq_true_iff.mp h with h1 | h1
      · exact Bool.or_eq_true_iff.mpr (Or.inl (hg p h1))
      · exact Bool.or_eq_true_iff.mpr (Or.inr h1)
    · rw [updateFirst, if_neg hf, List.any_cons]
      rcases Bool.or_eq_true_iff.mp h with h1 | h1
      · exact Bool.or_eq_true_iff.mpr (Or.inl h1)
      · exact Bool.or_eq_true_iff.mpr
          (Or.inr (updateFirst_any_mono hg ps h1))

theorem length_filter_updateFirst {α : Type} {f : α → Bool} {g : α → α}
    {Q : α → Bool} (hg : ∀ p, Q (g p) = Q p) :
    ∀ ps : List α,
      ((updateFirst f g ps).filter Q).length = (ps.filter Q).length
  | [] => rfl
  | p :: ps => by
    by_cases h : f p = true
    · simp only [updateFirst, if_pos h, List.filter_cons, hg p]
      by_cases hq : Q p = true <;> simp [hq]
    · simp only [updateFirst, if_neg h, List.filter_cons]
      by_cases hq : Q p = true <;>
        simp [hq, length_filter_updateFirst hg ps]

theorem countCompleted_updateFirst {f : ModuleProgress → Bool}
    {g : ModuleProgress → ModuleProgress}
    (hg : ∀ p, (g p).is_completed = p.is_completed)
    (ps : List ModuleProgress) :
    countCompleted (updateFirst f g ps) = countCompleted ps :=
  length_filter_updateFirst hg ps

theorem find?_updateFirst {mid : Nat}
    {g : ModuleProgress → ModuleProgress}
    (hg : ∀ p, (g p).module_id = p.module_id) :
    ∀ ps : List ModuleProgress,
      (updateFirst (fun p => p.module_id == mid) g ps).find?
          (fun p => p.module_id == mid)
        = (ps.find? (fun p => p.module_id == mid)).map g
  | [] => rfl
  | p :: ps => by
    cases h : (p.module_id == mid) with
    | true =>
      have h2 : ((g p).module_id == mid) = true := by rw [hg]; exact h
      simp [updateFirst, h, List.find?_cons, h2]
    | false =>
      simp [updateFirst, h, List.find?_cons, find?_updateFirst hg ps]

theorem rowCompleted_cons_pos {p : ModuleProgress}
    {ps : List ModuleProgress} {x : Nat}
    (h : (p.module_id == x) = true) :
    rowCompleted (p :: ps) x = p.is_completed := by
  simp [rowCompleted, List.find?_cons, h]

theorem rowCompleted_cons_neg {p : ModuleProgress}
    {ps : List ModuleProgress} {x : Nat}
    (h : (p.module_id == x) = false) :
    rowCompleted (p :: ps) x = rowCompleted ps x := by
  simp [rowCompleted, List.find?_cons, h]

theorem rowCompleted_updateFirst_mono {tgt : Nat}
    {g : ModuleProgress → ModuleProgress}
    (hid : ∀ p, (g p).module_id = p.module_id)
    (hc : ∀ p, p.is_completed = true → (g p).is_completed = true) :
    ∀ (ps : List ModuleProgress) (x : Nat), rowCompleted ps x = true →
      rowCompleted
        (updateFirst (fun p => p.module_id == tgt) g ps) x = true
  | p :: ps, x, h => by
    cases ht : (p.module_id == tgt) with
    | true =>
      have hup : updateFirst (fun p => p.module_id == tgt) g (p :: ps)
          = g p :: ps := by
        simp [updateFirst, ht]
      rw [hup]
      cases hx : (p.module_id == x) with
      | true =>
        have hx2 : ((g p).module_id == x) = true := by
          rw [hid]; exact hx
        rw [rowCompleted_cons_pos hx] at h
        rw [rowCompleted_cons_pos hx2]
        exact hc p h
      | false =>
        have hx2 : ((g p).module_id == x) = false := by
          rw [hid]; exact hx
        rw [rowCompleted_cons_neg hx] at h
        rw [rowCompleted_cons_neg hx2]
        exact h
    | false =>
      have hup : updateFirst (fun p => p.module_id == tgt) g (p :: ps)
          = p :: updateFirst (fun p => p.module_id == tgt) g ps := by
        simp [updateFirst, ht]
      rw [hup]
      cases hx : (p.module_id == x) with
      | true =>
        rw [rowCompleted_cons_pos hx] at h
        rw [rowCompleted_cons_pos hx]
        exact h
      | false =>
        rw [rowCompleted_cons_neg hx] at h
        rw [rowCompleted_cons_neg hx]
        exact rowCompleted_updateFirst_mono hid hc ps x h

theorem requiredCompleted_updateFirst_mono {flow : Flow} {tgt : Nat}
    {g : ModuleProgress → ModuleProgress}
    (hid : ∀ p, (g p).module_id = p.module_id)
    (hc : ∀ p, p.is_completed = true → (g p).is_completed = true)
    {ps : List ModuleProgress}
    (h : requiredCompleted flow ps = true) :
    requiredCompleted flow
      (updateFirst (fun p => p.module_id == tgt) g ps) = true := by
  rw [requiredCompleted, List.all_eq_true] at h ⊢
  intro m hm
  refine updateFirst_any_mono (fun p hp => ?_) ps (h m hm)
  rw [Bool.and_eq_true] at hp ⊢
  exact ⟨by rw [hid]; exact hp.1, hc p hp.2⟩

theorem requiredCompleted_updateFirst_eq {flow : Flow}
    {f : ModuleProgress → Bool} {g : ModuleProgress → ModuleProgress}
    (hid : ∀ p, (g p).module_id = p.module_id)
    (hc : ∀ p, (g p).is_completed = p.is_completed)
    (ps : List ModuleProgress) :
    requiredCompleted flow (updateFirst f g ps) =
      requiredCompleted flow ps := by
  rw [requiredCompleted, requiredCompleted]
  refine congrArg _ (funext fun m => ?_)
  refine updateFirst_any_eq (fun p => ?_) ps
  rw [hid, hc]

/-! ### Aggregator lemmas -/

theorem agg_pct (flow : Flow) (a : Assignment)
    (ps : List ModuleProgress) (now : Nat) :
    (updateAssignmentProgress flow a ps now).completion_percentage =
      computedPct flow ps := by
  simp only [updateAssignmentProgress, computedPct]
  split_ifs <;> rfl

theorem agg_started (flow : Flow) (a : Assignment)
    (ps : List ModuleProgress) (now : Nat) :
    (updateAssignmentProgress flow a ps now).started_at =
      a.started_at := by
  simp only [updateAssignmentProgress]
  split_ifs <;> rfl

theorem requiredCompleted_of_no_modules {flow : Flow}
    (h : flow.modules.length = 0) (ps : List ModuleProgress) :
    requiredCompleted flow ps = true := by
  rw [List.length_eq_zero] at h
  simp [requiredCompleted, h]

theorem agg_status_iff {flow : Flow} {a : Assignment}
    {ps : List ModuleProgress} (now : Nat)
    (h : a.status = .completed → requiredCompleted flow ps = true) :
    ((updateAssignmentProgress flow a ps now).status = .completed) ↔
      requiredCompleted flow ps = true := by
  simp only [updateAssignmentProgress]
  by_cases h0 : flow.modules.length = 0
  · simp [h0, requiredCompleted_of_no_modules h0 ps]
  · cases hr : requiredCompleted flow ps with
    | true => simp [h0, hr]
    | false =>
      have hneg : ¬a.status = .completed := fun hcon => by
        have h2 := h hcon
        rw [h2] at hr
        exact Bool.noConfusion hr
      by_cases hp : pyIntTimes100 (countCompleted ps) flow.modules.length > 0
      · simp [h0, hr, hp]
      · simp [h0, hr, hp, hneg]

theorem agg_status_shape {flow : Flow} {a : Assignment}
    {ps : List ModuleProgress} (now : Nat)
    (h : a.status = .in_progress ∨ a.status = .completed) :
    (updateAssignmentProgress flow a ps now).status = .in_progress ∨
      (updateAssignmentProgress flow a ps now).status = .completed := by
  simp only [updateAssignmentProgress]
  by_cases h0 : flow.modules.length = 0
  · simp [h0]
  · by_cases hr : requiredCompleted flow ps = true
    · simp [h0, hr]
    · by_cases hp : pyIntTimes100 (countCompleted ps) flow.modules.length > 0
      · simp [h0, hr, hp]
      · simp [h0, hr, hp, h]

theorem agg_of_required {flow : Flow} {a : Assignment}
    {ps : List ModuleProgress} (now : Nat)
    (h : requiredCompleted flow ps = true) :
    (updateAssignmentProgress flow a ps now).status = .completed ∧
    (updateAssignmentProgress flow a ps now).completed_at = some now := by
  simp only [updateAssignmentProgress]
  by_cases h0 : flow.modules.length = 0
  · simp [h0]
  · simp [h0, h]

theorem agg_noop {flow : Flow} {a : Assignment}
    {ps : List ModuleProgress} (now : Nat)
    (hpct : a.completion_percentage = computedPct flow ps)
    (hiff : a.status = .completed ↔ requiredCompleted flow ps = true)
    (hsh : a.status = .in_progress ∨ a.status = .completed) :
    (updateAssignmentProgress flow a ps now).status = a.status ∧
    (updateAssignmentProgress flow a ps now).completion_percentage =
      a.completion_percentage := by
  unfold updateAssignmentProgress
  by_cases h0 : flow.modules.length = 0
  · have hr := requiredCompleted_of_no_modules h0 ps
    have hst : a.status = .completed := hiff.mpr hr
    simp [h0, hst, hpct, computedPct]
  · by_cases hr : requiredCompleted flow ps = true
    · have hst : a.status = .completed := hiff.mpr hr
      simp [h0, hr, hst, hpct, computedPct]
    · have hst : ¬a.status = .completed := fun hcon => hr (hiff.mp hcon)
      have hip : a.status = .in_progress := by
        rcases hsh with h1 | h1
        · exact h1
        · exact absurd h1 hst
      by_cases hp : pyIntTimes100 (countCompleted ps) flow.modules.length > 0
      · simp [h0, hr, hp, hip, hpct, computedPct]
      · simp [h0, hr, hp, hpct, computedPct]

/-! ### startAssignment lemmas -/

theorem startAssignment_of_none {a : Assignment} (now : Nat)
    (h : a.started_at = none) :
    startAssignment a now =
      { a with started_at := some now, status := .in_progress } := by
  simp [startAssignment, h]

theorem startAssignment_of_some {a : Assignment} {t : Nat} (now : Nat)
    (h : a.started_at = some t) : startAssignment a now = a := by
  simp [startAssignment, h]

theorem startAssignment_started (a : Assignment) (now : Nat) :
    (startAssignment a now).started_at.isSome = true := by
  cases h : a.started_at <;> simp [startAssignment, h]

/-! ### Operation shape lemmas -/

theorem complete_module_ok {s : AState} {mid uid : Nat}
    {data : CompleteModuleRequest} {now : Nat} {s' : AState}
    (h : complete_module s mid uid data now = .ok s') :
    s'.flow = s.flow ∧
    s'.progress = updateFirst (fun p => p.module_id == mid)
      (completedRow now data) s.progress ∧
    s'.assignment = updateAssignmentProgress s.flow
      (startAssignment s.assignment now) s'.progress now ∧
    s.assignment.user_id = uid ∧
    (s.progress.find? (fun p => p.module_id == mid)).isSome = true := by
  unfold complete_module at h
  cases hf : s.progress.find? (fun p => p.module_id == mid) with
  | none => rw [hf] at h; exact Except.noConfusion h
  | some p0 =>
    rw [hf] at h
    by_cases hu : (s.assignment.user_id == uid) = true
    · simp only [hu, Bool.not_true, Bool.false_eq_true, if_false] at h
      cases h
      exact ⟨rfl, rfl, rfl, beq_iff_eq.mp hu, rfl⟩
    · simp only [Bool.not_eq_true] at hu
      simp only [hu, Bool.not_false, if_true] at h
      exact Except.noConfusion h

theorem submit_quiz_ok {s : AState} {mid uid : Nat}
    {data : SubmitQuizRequest} {now : Nat} {s' : AState}
    (h : submit_quiz s mid uid data now = .ok s') :
    ∃ m, s.flow.modules.find? (fun m => m.id == mid) = some m ∧
      m.content_type = "quiz" ∧
      s'.flow = s.flow ∧
      s'.progress = updateFirst (fun p => p.module_id == mid)
        (quizRow (quizScore m data.answers) (quizPassed m data.answers)
          now data) s.progress ∧
      s'.assignment = updateAssignmentProgress s.flow
        (startAssignment s.assignment now) s'.progress now ∧
      s.assignment.user_id = uid := by
  unfold submit_quiz at h
  cases hf : s.progress.find? (fun p => p.module_id == mid) with
  | none => rw [hf] at h; exact Except.noConfusion h
  | some p0 =>
    rw [hf] at h
    cases hm : s.flow.modules.find? (fun m => m.id == mid) with
    | none => rw [hm] at h; exact Except.noConfusion h
    | some m =>
      rw [hm] at h
      by_cases hq : (m.content_type == "quiz") = true
      · by_cases hu : (s.assignment.user_id == uid) = true
        · simp only [hq, hu, Bool.not_true, Bool.false_eq_true,
            if_false] at h
          cases h
          exact ⟨m, rfl, beq_iff_eq.mp hq, rfl, rfl, rfl,
            beq_iff_eq.mp hu⟩
        · simp only [Bool.not_eq_true] at hu
          simp only [hq, Bool.not_true, Bool.false_eq_true, if_false,
            hu, Bool.not_false, if_true] at h
          exact Except.noConfusion h
      · simp only [Bool.not_eq_true] at hq
        simp only [hq, Bool.not_false, if_true] at h
        exact Except.noConfusion h

theorem assign_flow_ok {flow : Flow} {db : List Assignment}
    {data : AssignmentCreate} {now : Nat} {a : Assignment}
    {ps : List ModuleProgress}
    (h : assign_flow flow db data now = .ok (a, ps)) :
    a = ⟨data.flow_id, data.user_id, .not_started, now, none, none,
         data.due_date, 0⟩ ∧
    ps = flow.modules.map (fun m =>
      ⟨m.id, false, none, 0, none, none, none⟩) := by
  unfold assign_flow at h
  by_cases he : (db.filter (fun a =>
      a.flow_id == data.flow_id && a.user_id == data.user_id &&
      !(a.status == Status.completed))).isEmpty = true
  · simp only [he, if_true, Except.ok.injEq, Prod.mk.injEq] at h
    exact ⟨h.1.symm, h.2.symm⟩
  · simp only [Bool.not_eq_true] at he
    simp only [he, Bool.false_eq_true, if_false] at h
    exact Except.noConfusion h

/-! ### The reachability invariant -/

theorem inv_step_complete {s : AState} {mid uid : Nat}
    {data : CompleteModuleRequest} {now : Nat} {s' : AState}
    (hInv : InitOK s ∨ AggOK s)
    (h : complete_module s mid uid data now = .ok s') : AggOK s' := by
  obtain ⟨hfl, hps, ha, -, -⟩ := complete_module_ok h
  have hid : ∀ p, (completedRow now data p).module_id = p.module_id :=
    completedRow_module_id now data
  have hmono : ∀ p, p.is_completed = true →
      (completedRow now data p).is_completed = true :=
    fun p _ => completedRow_is_completed now data p
  have hstat : (startAssignment s.assignment now).status = .completed →
      requiredCompleted s.flow s'.progress = true := by
    intro hc
    cases hsa : s.assignment.started_at with
    | none =>
      rw [startAssignment_of_none now hsa] at hc
      exact absurd hc (by simp)
    | some t =>
      rw [startAssignment_of_some now hsa] at hc
      rcases hInv with hI | hA
      · rw [hI.1] at hc
        exact absurd hc (by simp)
      · have hreq := hA.2.1.mp hc
        rw [hps]
        exact requiredCompleted_updateFirst_mono hid hmono hreq
  have hshape : (startAssignment s.assignment now).status = .in_progress ∨
      (startAssignment s.assignment now).status = .completed := by
    cases hsa : s.assignment.started_at with
    | none =>
      rw [startAssignment_of_none now hsa]
      exact Or.inl rfl
    | some t =>
      rw [startAssignment_of_some now hsa]
      rcases hInv with hI | hA
      · rw [hI.2.1] at hsa
        exact Option.noConfusion hsa
      · exact hA.2.2.1
  refine ⟨?_, ?_, ?_, ?_⟩
  · rw [ha, agg_pct, hfl]
  · rw [ha, hfl]
    exact agg_status_iff now hstat
  · rw [ha]
    exact agg_status_shape now hshape
  · rw [ha, agg_started]
    exact startAssignment_started s.assignment now

theorem inv_step_quiz {s : AState} {mid uid : Nat}
    {data : SubmitQuizRequest} {now : Nat} {s' : AState}
    (hInv : InitOK s ∨ AggOK s)
    (h : submit_quiz s mid uid data now = .ok s') : AggOK s' := by
  obtain ⟨m, -, -, hfl, hps, ha, -⟩ := submit_quiz_ok h
  have hid : ∀ p, (quizRow (quizScore m data.answers)
      (quizPassed m data.answers) now data p).module_id = p.module_id :=
    quizRow_module_id _ _ now data
  have hmono : ∀ p, p.is_completed = true →
      (quizRow (quizScore m data.answers)
        (quizPassed m data.answers) now data p).is_completed = true := by
    intro p hp
    rw [quizRow_is_completed, hp, Bool.true_or]
  have hstat : (startAssignment s.assignment now).status = .completed →
      requiredCompleted s.flow s'.progress = true := by
    intro hc
    cases hsa : s.assignment.started_at with
    | none =>
      rw [startAssignment_of_none now hsa] at hc
      exact absurd hc (by simp)
    | some t =>
      rw [startAssignment_of_some now hsa] at hc
      rcases hInv with hI | hA
      · rw [hI.1] at hc
        exact absurd hc (by simp)
      · have hreq := hA.2.1.mp hc
        rw [hps]
        exact requiredCompleted_updateFirst_mono hid hmono hreq
  have hshape : (startAssignment s.assignment now).status = .in_progress ∨
      (startAssignment s.assignment now).status = .completed := by
    cases hsa : s.assignment.started_at with
    | none =>
      rw [startAssignment_of_none now hsa]
      exact Or.inl rfl
    | some t =>
      rw [startAssignment_of_some now hsa]
      rcases hInv with hI | hA
      · rw [hI.2.1] at hsa
        exact Option.noConfusion hsa
      · exact hA.2.2.1
  refine ⟨?_, ?_, ?_, ?_⟩
  · rw [ha, agg_pct, hfl]
  · rw [ha, hfl]
    exact agg_status_iff now hstat
  · rw [ha]
    exact agg_status_shape now hshape
  · rw [ha, agg_started]
    exact startAssignment_started s.assignment now

theorem reachable_inv {s : AState} (h : Reachable s) :
    InitOK s ∨ AggOK s := by
  induction h with
  | init flow db data now a ps hok =>
    left
    obtain ⟨ha, hps⟩ := assign_flow_ok hok
    subst ha
    subst hps
    refine ⟨rfl, rfl, rfl, fun p hp => ?_⟩
    rw [List.mem_map] at hp
    obtain ⟨m, -, rfl⟩ := hp
    rfl
  | completeStep s mid uid data now s' hs hok ih =>
    exact Or.inr (inv_step_complete ih hok)
  | quizStep s mid uid data now s' hs hok ih =>
    exact Or.inr (inv_step_quiz ih hok)

/-- In a reachable state, a COMPLETED status means every required
module really is completed. -/
theorem reachable_completed_required {s : AState} (hr : Reachable s)
    (hc : s.assignment.status = .completed) :
    requiredCompleted s.flow s.progress = true := by
  rcases reachable_inv hr with hI | hA
  · rw [hI.1] at hc
    exact absurd hc (by simp)
  · exact hA.2.1.mp hc

theorem rowCompleted_updateFirst_eq {f : ModuleProgress → Bool}
    {g : ModuleProgress → ModuleProgress}
    (hid : ∀ p, (g p).module_id = p.module_id)
    (hc : ∀ p, (g p).is_completed = p.is_completed) :
    ∀ (ps : List ModuleProgress) (x : Nat),
      rowCompleted (updateFirst f g ps) x = rowCompleted ps x
  | [], _ => rfl
  | p :: ps, x => by
    by_cases hf : f p = true
    · have hup : updateFirst f g (p :: ps) = g p :: ps := by
        simp [updateFirst, hf]
      rw [hup]
      cases hx : (p.module_id == x) with
      | true =>
        have hx2 : ((g p).module_id == x) = true := by
          rw [hid]; exact hx
        rw [rowCompleted_cons_pos hx2, rowCompleted_cons_pos hx, hc]
      | false =>
        have hx2 : ((g p).module_id == x) = false := by
          rw [hid]; exact hx
        rw [rowCompleted_cons_neg hx2, rowCompleted_cons_neg hx]
    · have hup : updateFirst f g (p :: ps) =
          p :: updateFirst f g ps := by
        simp [updateFirst, hf]
      rw [hup]
      cases hx : (p.module_id == x) with
      | true =>
        rw [rowCompleted_cons_pos hx, rowCompleted_cons_pos hx]
      | false =>
        rw [rowCompleted_cons_neg hx, rowCompleted_cons_neg hx]
        exact rowCompleted_updateFirst_eq hid hc ps x

theorem computedPct_updateFirst_eq {flow : Flow}
    {f : ModuleProgress → Bool} {g : ModuleProgress → ModuleProgress}
    (hc : ∀ p, (g p).is_completed = p.is_completed)
    (ps : List ModuleProgress) :
    computedPct flow (updateFirst f g ps) = computedPct flow ps := by
  unfold computedPct
  rw [countCompleted_updateFirst hc]

theorem rowCompleted_of_rowOf {ps : List ModuleProgress} {mid : Nat}
    {r : ModuleProgress} (h : rowOf ps mid = some r) :
    rowCompleted ps mid = r.is_completed := by
  rw [rowOf] at h
  rw [rowCompleted, h]

/-- A quiz submission whose grade does not pass leaves the completion
ledger, the status and the percentage of an aggregator-consistent
assignment untouched (it still overwrites the quiz fields and may
replace the stored time). -/
theorem submit_quiz_failed_noop {s : AState} {mid uid : Nat}
    {dataQ : SubmitQuizRequest} {now : Nat} {s2 : AState}
    {m : OnboardingModule} (hA : AggOK s)
    (h : submit_quiz s mid uid dataQ now = .ok s2)
    (hm : s.flow.modules.find? (fun mm => mm.id == mid) = some m)
    (hfail : quizPassed m dataQ.answers = false) :
    s2.assignment.status = s.assignment.status ∧
    s2.assignment.completion_percentage =
      s.assignment.completion_percentage ∧
    (∀ x, rowCompleted s2.progress x = rowCompleted s.progress x) := by
  obtain ⟨m2, hm2, -, hfl, hps, ha, -⟩ := submit_quiz_ok h
  rw [hm] at hm2
  cases hm2
  rw [hfail] at hps
  have hcEq : ∀ p, (quizRow (quizScore m dataQ.answers) false now
      dataQ p).is_completed = p.is_completed := by
    intro p
    rw [quizRow_is_completed, Bool.or_false]
  have hid : ∀ p, (quizRow (quizScore m dataQ.answers) false now
      dataQ p).module_id = p.module_id :=
    quizRow_module_id _ _ now dataQ
  have hrows : ∀ x, rowCompleted s2.progress x =
      rowCompleted s.progress x := by
    intro x
    rw [hps]
    exact rowCompleted_updateFirst_eq hid hcEq s.progress x
  have hpctEq : computedPct s.flow s2.progress =
      computedPct s.flow s.progress := by
    rw [hps]
    exact computedPct_updateFirst_eq hcEq s.progress
  have hreqEq : requiredCompleted s.flow s2.progress =
      requiredCompleted s.flow s.progress := by
    rw [hps]
    exact requiredCompleted_updateFirst_eq hid hcEq s.progress
  obtain ⟨t, hsa⟩ := Option.isSome_iff_exists.mp hA.2.2.2
  have hstart : startAssignment s.assignment now = s.assignment :=
    startAssignment_of_some now hsa
  have hpct1 : s.assignment.completion_percentage =
      computedPct s.flow s2.progress := by
    rw [hpctEq]
    exact hA.1
  have hiff1 : s.assignment.status = .completed ↔
      requiredCompleted s.flow s2.progress = true := by
    rw [hreqEq]
    exact hA.2.1
  have hnoop := agg_noop now hpct1 hiff1 hA.2.2.1
  refine ⟨?_, ?_, hrows⟩
  · rw [ha, hstart]
    exact hnoop.1
  · rw [ha, hstart]
    exact hnoop.2

theorem submit_quiz_ok_row {s : AState} {mid uid : Nat}
    {data : SubmitQuizRequest} {now : Nat} {s' : AState}
    (h : submit_quiz s mid uid data now = .ok s') :
    (s.progress.find? (fun p => p.module_id == mid)).isSome = true := by
  unfold submit_quiz at h
  cases hf : s.progress.find? (fun p => p.module_id == mid) with
  | none => rw [hf] at h; exact Except.noConfusion h
  | some p0 => rfl

/-! ## The claims

Concrete fixtures are shared between counterexamples and witnesses;
timestamps are arbitrary Nat instants. -/

/-- A two-module flow, both required plain text modules at positions 0
and 1. -/
def flowTwo : Flow :=
  ⟨1, [⟨1, 0, true, "text", [], none⟩, ⟨2, 1, true, "text", [], none⟩]⟩

/-- A fresh assignment of flowTwo to user 7, as assign_flow creates
it. -/
def stateTwo : AState :=
  ⟨flowTwo, ⟨1, 7, .not_started, 0, none, none, none, 0⟩,
   [⟨1, false, none, 0, none, none, none⟩,
    ⟨2, false, none, 0, none, none, none⟩]⟩

/-- The frontend view of flowTwo and of the fresh progress above. -/
def feModulesTwo : List FEModule := [⟨1, 0⟩, ⟨2, 1⟩]

def feProgressTwo : List FEModuleProgress :=
  [⟨1, "pending"⟩, ⟨2, "pending"⟩]

/-- Claim C1: the sequencing rule is claimed to be enforced at
complete_module/submit_quiz with a Locked failure. In the source it is
not: the only lock check is the frontend isModuleLocked predicate, and
complete_module happily completes the position-1 module of a fresh
assignment whose position-0 module is still incomplete. The first
conjunct shows position 0 is never locked client-side; the second shows
the client does consider module 2 locked in this state; the rest shows
the server neverthelesss accepts and records the completion. -/
theorem c1_sequencing_not_enforced_server_side :
    (∀ (ms : List FEModule) (ps : List FEModuleProgress),
      isModuleLocked ms ps 0 = false) ∧
    isModuleLocked feModulesTwo feProgressTwo 1 = true ∧
    rowCompleted stateTwo.progress 1 = false ∧
    complete_module stateTwo 2 7 ⟨none, none⟩ 5 =
      .ok (getOk (complete_module stateTwo 2 7 ⟨none, none⟩ 5)
        stateTwo) ∧
    rowCompleted (getOk (complete_module stateTwo 2 7 ⟨none, none⟩ 5)
      stateTwo).progress 2 = true := by
  refine ⟨fun ms ps => rfl, ?_, ?_, ?_, ?_⟩ <;> decide

/-- A flow with no modules at all. -/
def flowEmpty : Flow := ⟨1, []⟩

/-- Claim C2, counterexample: assign on the zero-module flow succeeds
but returns the column defaults NOT_STARTED / 0 / no completed_at, not
the claimed COMPLETED / 100 / completed_at set. -/
theorem c2_counterexample :
    assign_flow flowEmpty [] ⟨1, 7, none⟩ 3 =
      .ok (⟨1, 7, .not_started, 3, none, none, none, 0⟩, []) ∧
    Status.not_started ≠ Status.completed ∧ (0 : Nat) ≠ 100 := by
  decide

/-- Claim C2, amended: a successful assign of a zero-module flow yields
completion_percentage 0, status NOT_STARTED and no completed_at (the
defaults), with an empty progress set; assign_flow never invokes
updateAssignmentProgress, whose zero-module branch is what would
produce 100/COMPLETED. -/
theorem c2_zero_module_assign_defaults (flow : Flow)
    (db : List Assignment) (data : AssignmentCreate) (now : Nat)
    (a : Assignment) (ps : List ModuleProgress)
    (hmods : flow.modules = [])
    (h : assign_flow flow db data now = .ok (a, ps)) :
    a.status = .not_started ∧ a.completion_percentage = 0 ∧
    a.completed_at = none ∧ ps = [] := by
  obtain ⟨ha, hps⟩ := assign_flow_ok h
  subst ha
  rw [hps, hmods]
  exact ⟨rfl, rfl, rfl, rfl⟩

/-- Witness for C2: the amended statement applied to the concrete
zero-module flow. -/
theorem c2_zero_module_assign_defaults_witness :
    (⟨1, 7, .not_started, 3, none, none, none, 0⟩ : Assignment).status
        = .not_started ∧
    (⟨1, 7, .not_started, 3, none, none, none,
      0⟩ : Assignment).completion_percentage = 0 ∧
    (⟨1, 7, .not_started, 3, none, none, none,
      0⟩ : Assignment).completed_at = none ∧
    ([] : List ModuleProgress) = [] :=
  c2_zero_module_assign_defaults flowEmpty [] ⟨1, 7, none⟩ 3
    ⟨1, 7, .not_started, 3, none, none, none, 0⟩ [] rfl (by decide)

/-- An active (IN_PROGRESS) assignment of flow 1 to user 7, and a
COMPLETED one. -/
def activeAssignment : Assignment :=
  ⟨1, 7, .in_progress, 0, some 1, none, none, 50⟩

def doneAssignment : Assignment :=
  ⟨1, 7, .completed, 0, some 1, some 2, none, 100⟩

/-- Claim C3, counterexample: the duplicate-active-assignment failure
kind. The source raises ValidationException (HTTP 422), not the
AlreadyExistsException conflict kind (HTTP 409), for a duplicate
assign while an IN_PROGRESS assignment exists. -/
theorem c3_counterexample :
    assign_flow flowTwo [activeAssignment] ⟨1, 7, none⟩ 5 =
      .error .validation ∧
    Err.validation ≠ Err.conflict := by
  decide

/-- Claim C3, amended: if any non-COMPLETED assignment for the same
(flow_id, user_id) exists, assign_flow fails with the Validation kind
and creates nothing; if every existing assignment for the pair is
COMPLETED, it succeeds. -/
theorem c3_duplicate_assign_validation (flow : Flow)
    (db : List Assignment) (data : AssignmentCreate) (now : Nat) :
    ((∃ x ∈ db, x.flow_id = data.flow_id ∧ x.user_id = data.user_id ∧
        x.status ≠ Status.completed) →
      assign_flow flow db data now = .error .validation) ∧
    ((∀ x ∈ db, x.flow_id = data.flow_id → x.user_id = data.user_id →
        x.status = Status.completed) →
      ∃ a ps, assign_flow flow db data now = .ok (a, ps)) := by
  constructor
  · rintro ⟨x, hx, h1, h2, h3⟩
    unfold assign_flow
    have hmem : x ∈ db.filter (fun a =>
        a.flow_id == data.flow_id && a.user_id == data.user_id &&
        !(a.status == Status.completed)) := by
      refine List.mem_filter.mpr ⟨hx, ?_⟩
      simp [h1, h2, h3]
    have hne : ¬(db.filter (fun a =>
        a.flow_id == data.flow_id && a.user_id == data.user_id &&
        !(a.status == Status.completed))).isEmpty = true := by
      intro hcon
      rw [List.isEmpty_iff] at hcon
      rw [hcon] at hmem
      exact List.not_mem_nil x hmem
    simp [hne]
  · intro hall
    unfold assign_flow
    have he : (db.filter (fun a =>
        a.flow_id == data.flow_id && a.user_id == data.user_id &&
        !(a.status == Status.completed))).isEmpty = true := by
      rw [List.isEmpty_iff]
      rw [List.filter_eq_nil_iff]
      intro x hx
      by_cases h1 : x.flow_id = data.flow_id
      · by_cases h2 : x.user_id = data.user_id
        · simp [h1, h2, hall x hx h1 h2]
        · simp [h2]
      · simp [h1]
    simp [he]

/-- Witness for C3: both directions at concrete inputs - the active
duplicate is rejected with Validation, and a pair with only a COMPLETED
assignment is accepted. -/
theorem c3_duplicate_assign_validation_witness :
    assign_flow flowTwo [activeAssignment] ⟨1, 7, none⟩ 5 =
      .error .validation ∧
    ∃ a ps, assign_flow flowTwo [doneAssignment] ⟨1, 7, none⟩ 5 =
      .ok (a, ps) :=
  ⟨(c3_duplicate_assign_validation flowTwo [activeAssignment]
      ⟨1, 7, none⟩ 5).1
      ⟨activeAssignment, by decide, rfl, rfl, by decide⟩,
   (c3_duplicate_assign_validation flowTwo [doneAssignment]
      ⟨1, 7, none⟩ 5).2
      (by intro x hx h1 h2
          rw [List.mem_singleton] at hx
          rw [hx]
          rfl)⟩

/-- A three-module flow, all required text, positions 0 to 2. -/
def flowThree : Flow :=
  ⟨1, [⟨1, 0, true, "text", [], none⟩, ⟨2, 1, true, "text", [], none⟩,
       ⟨3, 2, true, "text", [], none⟩]⟩

/-- An assignment over flowThree with exactly module 1 completed (the
state a first complete_module call leaves behind: 33 percent,
IN_PROGRESS). -/
def stateThreeOne : AState :=
  ⟨flowThree, ⟨1, 7, .in_progress, 0, some 1, none, none, 33⟩,
   [⟨1, true, some 1, 0, none, none, none⟩,
    ⟨2, false, none, 0, none, none, none⟩,
    ⟨3, false, none, 0, none, none, none⟩]⟩

def stateThreeTwo : AState :=
  getOk (complete_module stateThreeOne 2 7 ⟨none, none⟩ 5) stateThreeOne

/-- A one-question-pair quiz module with passing score 50. -/
def quizModule : OnboardingModule :=
  ⟨1, 0, true, "quiz", [⟨some "a"⟩, ⟨some "b"⟩], some 50⟩

def flowQuiz : Flow := ⟨1, [quizModule]⟩

/-- A fresh assignment of flowQuiz. -/
def stateQuiz : AState :=
  ⟨flowQuiz, ⟨1, 7, .not_started, 0, none, none, none, 0⟩,
   [⟨1, false, none, 0, none, none, none⟩]⟩

/-- stateQuiz after a fully correct (passing) submission at time 10. -/
def stateQuizPassed : AState :=
  getOk (submit_quiz stateQuiz 1 7 ⟨[(0, "a"), (1, "b")], none⟩ 10)
    stateQuiz

/-- A fifty-module flow, all required text modules, positions 0 to
49. -/
def flowFifty : Flow :=
  ⟨1, (List.range 50).map (fun i => ⟨i + 1, i, true, "text", [], none⟩)⟩

/-- Progress rows over flowFifty with exactly the first 29 modules
completed. -/
def progressFifty : List ModuleProgress :=
  (List.range 50).map (fun i =>
    ⟨i + 1, decide (i < 29), none, 0, none, none, none⟩)

/-- Claim C4, counterexample: completing the second of three modules
stores int((2/3)*100) = 66, not round(100*2/3) = 67. The percentage is
not even exact floor: with 29 of 50 modules complete the aggregator
stores int((29/50)*100) = 57 by float truncation, while floor gives
29*100/50 = 58. -/
theorem c4_counterexample :
    complete_module stateThreeOne 2 7 ⟨none, none⟩ 5 =
      .ok stateThreeTwo ∧
    stateThreeTwo.assignment.completion_percentage = 66 ∧
    (66 : Nat) ≠ 67 ∧
    (updateAssignmentProgress flowFifty
      ⟨1, 7, .in_progress, 0, some 1, none, none, 56⟩ progressFifty
      9).completion_percentage = 57 ∧
    29 * 100 / 50 = 58 := by
  decide

/-- Claim C4, amended: after every complete_module or submit_quiz
mutation the stored percentage equals computedPct: the truncation
int((completedCount / totalCount) * 100) evaluated in binary64 floats
(100 when the flow has no modules). This is not round - 2 of 3 gives
66, not 67 - and at some inputs not exact floor either: 29 of 50 gives
57 where floor gives 58. -/
theorem c4_percentage_truncated (s : AState) (mid uid : Nat)
    (dataC : CompleteModuleRequest) (dataQ : SubmitQuizRequest)
    (now : Nat) (s1 s2 : AState) :
    (complete_module s mid uid dataC now = .ok s1 →
      s1.assignment.completion_percentage =
        computedPct s.flow s1.progress) ∧
    (submit_quiz s mid uid dataQ now = .ok s2 →
      s2.assignment.completion_percentage =
        computedPct s.flow s2.progress) := by
  constructor
  · intro h
    obtain ⟨-, -, ha, -, -⟩ := complete_module_ok h
    rw [ha, agg_pct]
  · intro h
    obtain ⟨m, -, -, -, -, ha, -⟩ := submit_quiz_ok h
    rw [ha, agg_pct]

/-- Witness for C4: both conjuncts at concrete mutations (a text module
completion reaching 66 percent and a passing quiz submission). -/
theorem c4_percentage_truncated_witness :
    stateThreeTwo.assignment.completion_percentage =
      computedPct stateThreeOne.flow stateThreeTwo.progress ∧
    stateQuizPassed.assignment.completion_percentage =
      computedPct stateQuiz.flow stateQuizPassed.progress :=
  ⟨(c4_percentage_truncated stateThreeOne 2 7 ⟨none, none⟩ ⟨[], none⟩ 5
      stateThreeTwo stateThreeOne).1 (by decide),
   (c4_percentage_truncated stateQuiz 1 7 ⟨none, none⟩
      ⟨[(0, "a"), (1, "b")], none⟩ 10 stateQuiz stateQuizPassed).2
      (by decide)⟩

/-- A flow whose single module is optional. -/
def flowOptional : Flow := ⟨1, [⟨1, 0, false, "text", [], none⟩]⟩

def optionalAssignment : Assignment :=
  ⟨1, 7, .not_started, 3, none, none, none, 0⟩

def optionalProgress : List ModuleProgress :=
  [⟨1, false, none, 0, none, none, none⟩]

/-- Claim C5, counterexample: a reachable state (fresh assignment of a
flow whose only module is optional) in which every required module is
vacuously complete yet the status is NOT_STARTED, not COMPLETED - the
claimed iff fails for reachable states that predate the first
mutation. -/
theorem c5_counterexample :
    assign_flow flowOptional [] ⟨1, 7, none⟩ 3 =
      .ok (optionalAssignment, optionalProgress) ∧
    Reachable ⟨flowOptional, optionalAssignment, optionalProgress⟩ ∧
    requiredCompleted flowOptional optionalProgress = true ∧
    optionalAssignment.status ≠ .completed := by
  refine ⟨by decide, Reachable.init flowOptional [] ⟨1, 7, none⟩ 3
    optionalAssignment optionalProgress (by decide), by decide,
    by decide⟩

/-- Claim C5, amended: after every complete_module or submit_quiz
mutation of a reachable state, status is COMPLETED exactly when every
required module of the flow has a completed progress row (optional
modules never block, though they count toward the percentage); fresh
assignments whose flow has no required module sit at NOT_STARTED even
though the required condition holds vacuously. -/
theorem c5_completed_iff_required (s : AState) (mid uid : Nat)
    (dataC : CompleteModuleRequest) (dataQ : SubmitQuizRequest)
    (now : Nat) (s1 s2 : AState) (hr : Reachable s) :
    (complete_module s mid uid dataC now = .ok s1 →
      (s1.assignment.status = .completed ↔
        requiredCompleted s1.flow s1.progress = true)) ∧
    (submit_quiz s mid uid dataQ now = .ok s2 →
      (s2.assignment.status = .completed ↔
        requiredCompleted s2.flow s2.progress = true)) :=
  ⟨fun h => (inv_step_complete (reachable_inv hr) h).2.1,
   fun h => (inv_step_quiz (reachable_inv hr) h).2.1⟩

theorem stateTwo_reachable : Reachable stateTwo :=
  Reachable.init flowTwo [] ⟨1, 7, none⟩ 0 stateTwo.assignment
    stateTwo.progress (by decide)

theorem stateQuiz_reachable : Reachable stateQuiz :=
  Reachable.init flowQuiz [] ⟨1, 7, none⟩ 0 stateQuiz.assignment
    stateQuiz.progress (by decide)

theorem stateQuizPassed_reachable : Reachable stateQuizPassed :=
  Reachable.quizStep stateQuiz 1 7 ⟨[(0, "a"), (1, "b")], none⟩ 10
    stateQuizPassed stateQuiz_reachable (by decide)

def stateTwoDone1 : AState :=
  getOk (complete_module stateTwo 1 7 ⟨none, none⟩ 4) stateTwo

/-- Witness for C5: both conjuncts at concrete reachable mutations. -/
theorem c5_completed_iff_required_witness :
    (stateTwoDone1.assignment.status = .completed ↔
      requiredCompleted stateTwoDone1.flow stateTwoDone1.progress
        = true) ∧
    (stateQuizPassed.assignment.status = .completed ↔
      requiredCompleted stateQuizPassed.flow stateQuizPassed.progress
        = true) :=
  ⟨(c5_completed_iff_required stateTwo 1 7 ⟨none, none⟩ ⟨[], none⟩ 4
      stateTwoDone1 stateTwo stateTwo_reachable).1 (by decide),
   (c5_completed_iff_required stateQuiz 1 7 ⟨none, none⟩
      ⟨[(0, "a"), (1, "b")], none⟩ 10 stateQuiz stateQuizPassed
      stateQuiz_reachable).2 (by decide)⟩

/-- The Quiz Grader (spec section 4.3) as one standalone pure function
over a quiz definition and an answer map, mirroring the grading block
of submit_quiz. -/
def grade (questions : List Question) (passingScore : Option Nat)
    (answers : List (Nat × String)) : Nat × Bool :=
  let score := if questions.isEmpty then 0
    else pyIntTimes100 (correctCount questions answers) questions.length
  (score, decide (passingScore.getD 70 ≤ score))

/-- A three-question quiz with no explicit passing score (defaults to
70). -/
def quizThree : OnboardingModule :=
  ⟨1, 0, true, "quiz", [⟨some "a"⟩, ⟨some "b"⟩, ⟨some "c"⟩], none⟩

/-- A quiz with no questions and a configured passing score of 0. -/
def quizEmptyZero : OnboardingModule := ⟨1, 0, true, "quiz", [], some 0⟩

def flowEmptyQuiz : Flow := ⟨1, [quizEmptyZero]⟩

def stateEmptyQuiz : AState :=
  ⟨flowEmptyQuiz, ⟨1, 7, .not_started, 0, none, none, none, 0⟩,
   [⟨1, false, none, 0, none, none, none⟩]⟩

/-- A fifty-question quiz, every correct answer the string a, with
passing score 58. -/
def quizFifty : OnboardingModule :=
  ⟨1, 0, true, "quiz", (List.range 50).map (fun _ => ⟨some "a"⟩),
   some 58⟩

/-- Answers getting exactly the first 29 questions of quizFifty
right. -/
def answersFifty : List (Nat × String) :=
  (List.range 29).map (fun i => (i, "a"))

/-- Claim C6, counterexample: the score is truncated, not rounded (2 of
3 correct gives 66, not round(200/3) = 67); the truncation is of the
binary64 product, not exact floor - 29 of 50 correct scores
int((29/50)*100) = 57 where floor gives 58, which under passing score
58 even flips the outcome to failed; and a zero-question quiz does not
unconditionally fail: with passing_score 0 its score 0 passes (0 >= 0),
and submit_quiz then marks the module completed. -/
theorem c6_counterexample :
    quizScore quizThree [(0, "a"), (1, "b")] = 66 ∧ (66 : Nat) ≠ 67 ∧
    quizScore quizFifty answersFifty = 57 ∧ 29 * 100 / 50 = 58 ∧
    quizPassed quizFifty answersFifty = false ∧
    quizPassed quizEmptyZero [] = true ∧
    rowOf (getOk (submit_quiz stateEmptyQuiz 1 7 ⟨[], none⟩ 5)
      stateEmptyQuiz).progress 1 =
      some ⟨1, true, some 5, 0, some 0, some true, none⟩ := by
  decide

/-- Claim C6, amended: a successful submit_quiz stores on the progress
row exactly the score and pass flag of the grader, where the score is
the truncation int((correctCount / totalQuestions) * 100) evaluated in
binary64 floats - not rounded (2 of 3 gives 66, not 67), and at inputs
such as 29 of 50 not exact floor (57, not 58) - each answer being
compared by key (question index) against the correct-answer marker;
the passing score defaults to 70 when absent; and a zero-question quiz
scores 0 and passes exactly when the effective passing score is 0 (it
does not unconditionally fail). -/
theorem c6_grading (s : AState) (mid uid : Nat)
    (data : SubmitQuizRequest) (now : Nat) (s' : AState)
    (m : OnboardingModule)
    (h : submit_quiz s mid uid data now = .ok s')
    (hm : s.flow.modules.find? (fun mm => mm.id == mid) = some m) :
    (∃ r, rowOf s'.progress mid = some r ∧
      r.quiz_score =
        some (grade m.quiz_questions m.passing_score data.answers).1 ∧
      r.quiz_passed =
        some (grade m.quiz_questions m.passing_score data.answers).2) ∧
    (∀ qs answers, grade ([] : List Question) qs answers =
      (0, decide (qs.getD 70 ≤ 0))) ∧
    (∀ questions answers, grade questions none answers =
      grade questions (some 70) answers) := by
  refine ⟨?_, fun qs answers => rfl, fun questions answers => rfl⟩
  obtain ⟨m2, hm2, -, -, hps, -, -⟩ := submit_quiz_ok h
  rw [hm] at hm2
  cases hm2
  have hsome := submit_quiz_ok_row h
  obtain ⟨r0, hr0⟩ := Option.isSome_iff_exists.mp hsome
  refine ⟨quizRow (quizScore m data.answers) (quizPassed m data.answers)
    now data r0, ?_, ?_, ?_⟩
  · rw [rowOf, hps, find?_updateFirst (quizRow_module_id _ _ now data),
      hr0]
    rfl
  · rw [quizRow_quiz_score]
    rfl
  · rw [quizRow_quiz_passed]
    rfl

/-- Witness for C6: the grading refinement at the concrete passing
submission on stateQuiz. -/
theorem c6_grading_witness :
    (∃ r, rowOf stateQuizPassed.progress 1 = some r ∧
      r.quiz_score = some (grade quizModule.quiz_questions
        quizModule.passing_score [(0, "a"), (1, "b")]).1 ∧
      r.quiz_passed = some (grade quizModule.quiz_questions
        quizModule.passing_score [(0, "a"), (1, "b")]).2) ∧
    (∀ qs answers, grade ([] : List Question) qs answers =
      (0, decide (qs.getD 70 ≤ 0))) ∧
    (∀ questions answers, grade questions none answers =
      grade questions (some 70) answers) :=
  c6_grading stateQuiz 1 7 ⟨[(0, "a"), (1, "b")], none⟩ 10
    stateQuizPassed quizModule (by decide) (by decide)

/-- A four-question quiz with passing score 70 (Scenario C of the
spec). -/
def quizFour : OnboardingModule :=
  ⟨1, 0, true, "quiz",
   [⟨some "a"⟩, ⟨some "b"⟩, ⟨some "c"⟩, ⟨some "d"⟩], some 70⟩

def flowQuizFour : Flow := ⟨1, [quizFour]⟩

/-- Fresh assignment of flowQuizFour: NOT_STARTED, no started_at. -/
def stateQuizFour : AState :=
  ⟨flowQuizFour, ⟨1, 7, .not_started, 0, none, none, none, 0⟩,
   [⟨1, false, none, 0, none, none, none⟩]⟩

/-- stateQuizFour after submitting 2 correct answers of 4 at time 5 -
score 50, failed. -/
def stateQuizFourFailed : AState :=
  getOk (submit_quiz stateQuizFour 1 7 ⟨[(0, "a"), (1, "b")], none⟩ 5)
    stateQuizFour

/-- Claim C7, counterexample: a failing first quiz submission (2 of 4
correct, passing score 70) does record score 50 / passed false and
leaves the module incomplete, but it does NOT leave the assignment
alone: it sets started_at and flips the status from NOT_STARTED to
IN_PROGRESS, even though no module completion happened. -/
theorem c7_counterexample :
    submit_quiz stateQuizFour 1 7 ⟨[(0, "a"), (1, "b")], none⟩ 5 =
      .ok stateQuizFourFailed ∧
    rowOf stateQuizFourFailed.progress 1 =
      some ⟨1, false, none, 0, some 50, some false, none⟩ ∧
    stateQuizFour.assignment.status = .not_started ∧
    stateQuizFour.assignment.started_at = none ∧
    stateQuizFourFailed.assignment.started_at = some 5 ∧
    stateQuizFourFailed.assignment.status = .in_progress := by
  decide

/-- Claim C7, amended: started_at is written exactly once, but the
first event that writes it is the first complete_module OR submit_quiz
call - passing or not - which also moves the status off NOT_STARTED; a
later call never overwrites it. A failed quiz on an assignment that is
already started records the failing score, leaves the module ledger,
the status and the percentage unchanged and keeps started_at. -/
theorem c7_started_at_once (s : AState) (mid uid : Nat)
    (dataC : CompleteModuleRequest) (dataQ : SubmitQuizRequest)
    (now t : Nat) (s1 s2 : AState) :
    (s.assignment.started_at = some t →
      complete_module s mid uid dataC now = .ok s1 →
      s1.assignment.started_at = some t) ∧
    (s.assignment.started_at = some t →
      submit_quiz s mid uid dataQ now = .ok s2 →
      s2.assignment.started_at = some t) ∧
    (s.assignment.started_at = none →
      complete_module s mid uid dataC now = .ok s1 →
      s1.assignment.started_at = some now ∧
      s1.assignment.status ≠ .not_started) ∧
    (s.assignment.started_at = none →
      submit_quiz s mid uid dataQ now = .ok s2 →
      s2.assignment.started_at = some now ∧
      s2.assignment.status ≠ .not_started) ∧
    (Reachable s → s.assignment.started_at = some t →
      submit_quiz s mid uid dataQ now = .ok s2 →
      ∀ m, s.flow.modules.find? (fun mm => mm.id == mid) = some m →
        quizPassed m dataQ.answers = false →
        s2.assignment.status = s.assignment.status ∧
        s2.assignment.completion_percentage =
          s.assignment.completion_percentage ∧
        s2.assignment.started_at = some t ∧
        rowCompleted s2.progress mid = rowCompleted s.progress mid) := by
  refine ⟨?_, ?_, ?_, ?_, ?_⟩
  · intro hsa h
    obtain ⟨-, -, ha, -, -⟩ := complete_module_ok h
    rw [ha, agg_started, startAssignment_of_some now hsa]
    exact hsa
  · intro hsa h
    obtain ⟨m, -, -, -, -, ha, -⟩ := submit_quiz_ok h
    rw [ha, agg_started, startAssignment_of_some now hsa]
    exact hsa
  · intro hsa h
    obtain ⟨-, -, ha, -, -⟩ := complete_module_ok h
    constructor
    · rw [ha, agg_started, startAssignment_of_none now hsa]
    · have hsh := @agg_status_shape s.flow
        (startAssignment s.assignment now) s1.progress now
      rw [ha, startAssignment_of_none now hsa]
      rw [startAssignment_of_none now hsa] at hsh
      rcases hsh (Or.inl rfl) with h2 | h2 <;> rw [h2] <;> simp
  · intro hsa h
    obtain ⟨m, -, -, -, -, ha, -⟩ := submit_quiz_ok h
    constructor
    · rw [ha, agg_started, startAssignment_of_none now hsa]
    · have hsh := @agg_status_shape s.flow
        (startAssignment s.assignment now) s2.progress now
      rw [ha, startAssignment_of_none now hsa]
      rw [startAssignment_of_none now hsa] at hsh
      rcases hsh (Or.inl rfl) with h2 | h2 <;> rw [h2] <;> simp
  · intro hr hsa h m hm hfail
    have hA : AggOK s := by
      rcases reachable_inv hr with hI | hA
      · rw [hI.2.1] at hsa
        exact Option.noConfusion hsa
      · exact hA
    obtain ⟨hst, hpct, hrows⟩ := submit_quiz_failed_noop hA h hm hfail
    refine ⟨hst, hpct, ?_, hrows mid⟩
    obtain ⟨m2, -, -, -, -, ha, -⟩ := submit_quiz_ok h
    rw [ha, agg_started, startAssignment_of_some now hsa]
    exact hsa

/-- stateQuizPassed after a failing resubmission (no answers, score 0)
at time 20. -/
def stateQuizResubmit : AState :=
  getOk (submit_quiz stateQuizPassed 1 7 ⟨[], none⟩ 20) stateQuizPassed

/-- Witness for C7: all five conjuncts at concrete states - an already
started assignment keeps its started_at through both operations, a
fresh assignment gets it stamped by a completion and by a failed quiz,
and a failed quiz on a started assignment changes nothing else. -/
theorem c7_started_at_once_witness :
    stateThreeTwo.assignment.started_at = some 1 ∧
    stateQuizResubmit.assignment.started_at = some 10 ∧
    (stateTwoDone1.assignment.started_at = some 4 ∧
      stateTwoDone1.assignment.status ≠ .not_started) ∧
    (stateQuizFourFailed.assignment.started_at = some 5 ∧
      stateQuizFourFailed.assignment.status ≠ .not_started) ∧
    (stateQuizResubmit.assignment.status =
        stateQuizPassed.assignment.status ∧
      stateQuizResubmit.assignment.completion_percentage =
        stateQuizPassed.assignment.completion_percentage ∧
      stateQuizResubmit.assignment.started_at = some 10 ∧
      rowCompleted stateQuizResubmit.progress 1 =
        rowCompleted stateQuizPassed.progress 1) :=
  ⟨(c7_started_at_once stateThreeOne 2 7 ⟨none, none⟩ ⟨[], none⟩ 5 1
      stateThreeTwo stateThreeOne).1 (by decide) (by decide),
   (c7_started_at_once stateQuizPassed 1 7 ⟨none, none⟩ ⟨[], none⟩ 20
      10 stateQuizPassed stateQuizResubmit).2.1 (by decide) (by decide),
   (c7_started_at_once stateTwo 1 7 ⟨none, none⟩ ⟨[], none⟩ 4 0
      stateTwoDone1 stateTwo).2.2.1 (by decide) (by decide),
   (c7_started_at_once stateQuizFour 1 7 ⟨none, none⟩
      ⟨[(0, "a"), (1, "b")], none⟩ 5 0 stateQuizFour
      stateQuizFourFailed).2.2.2.1 (by decide) (by decide),
   (c7_started_at_once stateQuizPassed 1 7 ⟨none, none⟩ ⟨[], none⟩ 20
      10 stateQuizPassed stateQuizResubmit).2.2.2.2
      stateQuizPassed_reachable (by decide) (by decide) quizModule
      (by decide) (by decide)⟩

/-- A flow with a single required text module. -/
def flowOne : Flow := ⟨1, [⟨1, 0, true, "text", [], none⟩]⟩

def stateOne : AState :=
  ⟨flowOne, ⟨1, 7, .not_started, 0, none, none, none, 0⟩,
   [⟨1, false, none, 0, none, none, none⟩]⟩

def stateOneDone : AState :=
  getOk (complete_module stateOne 1 7 ⟨none, none⟩ 10) stateOne

def stateOneDone2 : AState :=
  getOk (complete_module stateOneDone 1 7 ⟨none, none⟩ 20) stateOneDone

theorem stateOne_reachable : Reachable stateOne :=
  Reachable.init flowOne [] ⟨1, 7, none⟩ 0 stateOne.assignment
    stateOne.progress (by decide)

theorem stateOneDone_reachable : Reachable stateOneDone :=
  Reachable.completeStep stateOne 1 7 ⟨none, none⟩ 10 stateOneDone
    stateOne_reachable (by decide)

/-- Claim C8, counterexample: the assignment becomes COMPLETED with
completed_at = 10, and re-completing its only module at time 20
overwrites completed_at to 20 - it is re-stamped, not written exactly
once. -/
theorem c8_counterexample :
    complete_module stateOne 1 7 ⟨none, none⟩ 10 = .ok stateOneDone ∧
    stateOneDone.assignment.status = .completed ∧
    stateOneDone.assignment.completed_at = some 10 ∧
    complete_module stateOneDone 1 7 ⟨none, none⟩ 20 =
      .ok stateOneDone2 ∧
    stateOneDone2.assignment.completed_at = some 20 ∧
    (some 20 : Option Nat) ≠ some 10 := by
  decide

/-- Claim C8, amended: once a reachable assignment is COMPLETED, no
complete_module or submit_quiz call moves its status out of COMPLETED;
but completed_at is not written exactly once - every such mutation of a
COMPLETED assignment re-stamps completed_at with the current time. -/
theorem c8_no_status_regression (s : AState) (mid uid : Nat)
    (dataC : CompleteModuleRequest) (dataQ : SubmitQuizRequest)
    (now : Nat) (s1 s2 : AState) (hr : Reachable s)
    (hc : s.assignment.status = .completed) :
    (complete_module s mid uid dataC now = .ok s1 →
      s1.assignment.status = .completed ∧
      s1.assignment.completed_at = some now) ∧
    (submit_quiz s mid uid dataQ now = .ok s2 →
      s2.assignment.status = .completed ∧
      s2.assignment.completed_at = some now) := by
  have hreq := reachable_completed_required hr hc
  constructor
  · intro h
    obtain ⟨-, hps, ha, -, -⟩ := complete_module_ok h
    have hreq1 : requiredCompleted s.flow s1.progress = true := by
      rw [hps]
      exact requiredCompleted_updateFirst_mono
        (completedRow_module_id now dataC)
        (fun p _ => completedRow_is_completed now dataC p) hreq
    rw [ha]
    exact agg_of_required now hreq1
  · intro h
    obtain ⟨m, -, -, -, hps, ha, -⟩ := submit_quiz_ok h
    have hreq1 : requiredCompleted s.flow s2.progress = true := by
      rw [hps]
      refine requiredCompleted_updateFirst_mono
        (quizRow_module_id _ _ now dataQ) (fun p hp => ?_) hreq
      rw [quizRow_is_completed, hp, Bool.true_or]
    rw [ha]
    exact agg_of_required now hreq1

/-- Witness for C8: both conjuncts - re-completing the only module of a
COMPLETED assignment, and a failed quiz resubmission on a COMPLETED
assignment; both keep COMPLETED and re-stamp completed_at to 20. -/
theorem c8_no_status_regression_witness :
    (stateOneDone2.assignment.status = .completed ∧
      stateOneDone2.assignment.completed_at = some 20) ∧
    (stateQuizResubmit.assignment.status = .completed ∧
      stateQuizResubmit.assignment.completed_at = some 20) :=
  ⟨(c8_no_status_regression stateOneDone 1 7 ⟨none, none⟩ ⟨[], none⟩ 20
      stateOneDone2 stateOneDone stateOneDone_reachable (by decide)).1
      (by decide),
   (c8_no_status_regression stateQuizPassed 1 7 ⟨none, none⟩ ⟨[], none⟩
      20 stateQuizPassed stateQuizResubmit stateQuizPassed_reachable
      (by decide)).2 (by decide)⟩

def stateOneT10 : AState :=
  getOk (complete_module stateOne 1 7 ⟨none, some 10⟩ 5) stateOne

def stateOneT4 : AState :=
  getOk (complete_module stateOneT10 1 7 ⟨none, some 4⟩ 6) stateOneT10

def stateOneTNeg : AState :=
  getOk (complete_module stateOne 1 7 ⟨none, some (-3)⟩ 5) stateOne

/-- Claim C9, counterexample: a second completeModule with timeSpent 4
after one with timeSpent 10 stores 4, not the accumulated 14; and a
timeSpent of -3 is stored as -3, so the stored value is not kept
non-negative. -/
theorem c9_counterexample :
    complete_module stateOne 1 7 ⟨none, some 10⟩ 5 = .ok stateOneT10 ∧
    rowTime stateOneT10.progress 1 = some 10 ∧
    complete_module stateOneT10 1 7 ⟨none, some 4⟩ 6 =
      .ok stateOneT4 ∧
    rowTime stateOneT4.progress 1 = some 4 ∧
    (some (4 : Int) : Option Int) ≠ some 14 ∧
    complete_module stateOne 1 7 ⟨none, some (-3)⟩ 5 =
      .ok stateOneTNeg ∧
    rowTime stateOneTNeg.progress 1 = some (-3) ∧
    (-3 : Int) < 0 := by
  decide

/-- Claim C9, amended: a completeModule or submitQuiz call carrying a
present, nonzero timeSpent REPLACES the stored time_spent_minutes with
that value (an absent or zero value leaves it unchanged); nothing
accumulates and nothing prevents a negative value from being stored. -/
theorem c9_time_overwritten (s : AState) (mid uid : Nat)
    (dataC : CompleteModuleRequest) (dataQ : SubmitQuizRequest)
    (now : Nat) (s1 s2 : AState) (r : ModuleProgress)
    (hrow : rowOf s.progress mid = some r) :
    (complete_module s mid uid dataC now = .ok s1 →
      rowTime s1.progress mid =
        some (match dataC.time_spent_minutes with
          | some t => if t ≠ 0 then t else r.time_spent_minutes
          | none => r.time_spent_minutes)) ∧
    (submit_quiz s mid uid dataQ now = .ok s2 →
      rowTime s2.progress mid =
        some (match dataQ.time_spent_minutes with
          | some t => if t ≠ 0 then t else r.time_spent_minutes
          | none => r.time_spent_minutes)) := by
  rw [rowOf] at hrow
  constructor
  · intro h
    obtain ⟨-, hps, -, -, -⟩ := complete_module_ok h
    rw [rowTime, rowOf, hps,
      find?_updateFirst (completedRow_module_id now dataC), hrow]
    simp only [Option.map_some']
    rw [completedRow_time, applyTime_time]
  · intro h
    obtain ⟨m, -, -, -, hps, -, -⟩ := submit_quiz_ok h
    rw [rowTime, rowOf, hps,
      find?_updateFirst (quizRow_module_id _ _ now dataQ), hrow]
    simp only [Option.map_some']
    rw [quizRow_time, applyTime_time]

def stateQuizT7 : AState :=
  getOk (submit_quiz stateQuiz 1 7 ⟨[(0, "a"), (1, "b")], some 7⟩ 10)
    stateQuiz

/-- Witness for C9: both conjuncts - a completion stores the supplied
10 over the default 0, a quiz submission stores the supplied 7. -/
theorem c9_time_overwritten_witness :
    rowTime stateOneT10.progress 1 = some 10 ∧
    rowTime stateQuizT7.progress 1 = some 7 :=
  ⟨(c9_time_overwritten stateOne 1 7 ⟨none, some 10⟩ ⟨[], none⟩ 5
      stateOneT10 stateOne ⟨1, false, none, 0, none, none, none⟩
      (by decide)).1 (by decide),
   (c9_time_overwritten stateQuiz 1 7 ⟨none, none⟩
      ⟨[(0, "a"), (1, "b")], some 7⟩ 10 stateQuiz stateQuizT7
      ⟨1, false, none, 0, none, none, none⟩ (by decide)).2 (by decide)⟩

/-- Claim C10: is_completed is monotone - neither operation ever turns
a completed progress row back to incomplete - and a failed quiz
resubmission on an already-completed quiz module of a reachable state
overwrites quiz_score and quiz_passed with the failing values while
keeping is_completed true and leaving the status and percentage
unchanged. -/
theorem c10_completion_monotone (s : AState) (mid uid x : Nat)
    (dataC : CompleteModuleRequest) (dataQ : SubmitQuizRequest)
    (now : Nat) (s1 s2 : AState) :
    (complete_module s mid uid dataC now = .ok s1 →
      rowCompleted s.progress x = true →
      rowCompleted s1.progress x = true) ∧
    (submit_quiz s mid uid dataQ now = .ok s2 →
      rowCompleted s.progress x = true →
      rowCompleted s2.progress x = true) ∧
    (Reachable s → rowCompleted s.progress mid = true →
      submit_quiz s mid uid dataQ now = .ok s2 →
      ∀ m, s.flow.modules.find? (fun mm => mm.id == mid) = some m →
        quizPassed m dataQ.answers = false →
        (∃ r, rowOf s2.progress mid = some r ∧
          r.quiz_score = some (quizScore m dataQ.answers) ∧
          r.quiz_passed = some false ∧
          r.is_completed = true) ∧
        s2.assignment.status = s.assignment.status ∧
        s2.assignment.completion_percentage =
          s.assignment.completion_percentage) := by
  refine ⟨?_, ?_, ?_⟩
  · intro h hx
    obtain ⟨-, hps, -, -, -⟩ := complete_module_ok h
    rw [hps]
    exact rowCompleted_updateFirst_mono
      (completedRow_module_id now dataC)
      (fun p _ => completedRow_is_completed now dataC p) s.progress x hx
  · intro h hx
    obtain ⟨m, -, -, -, hps, -, -⟩ := submit_quiz_ok h
    rw [hps]
    refine rowCompleted_updateFirst_mono
      (quizRow_module_id _ _ now dataQ) (fun p hp => ?_) s.progress x hx
    rw [quizRow_is_completed, hp, Bool.true_or]
  · intro hr hmid h m hm hfail
    have hsome := submit_quiz_ok_row h
    obtain ⟨r0, hr0⟩ := Option.isSome_iff_exists.mp hsome
    have hro : rowOf s.progress mid = some r0 := hr0
    have hr0c : r0.is_completed = true := by
      rw [rowCompleted_of_rowOf hro] at hmid
      exact hmid
    have hA : AggOK s := by
      rcases reachable_inv hr with hI | hA
      · exfalso
        have hmem := List.mem_of_find?_eq_some hr0
        have hfalse := hI.2.2.2 r0 hmem
        rw [hfalse] at hr0c
        exact Bool.noConfusion hr0c
      · exact hA
    obtain ⟨hst, hpct, -⟩ := submit_quiz_failed_noop hA h hm hfail
    refine ⟨?_, hst, hpct⟩
    obtain ⟨m2, hm2, -, -, hps, -, -⟩ := submit_quiz_ok h
    rw [hm] at hm2
    cases hm2
    refine ⟨quizRow (quizScore m dataQ.answers)
      (quizPassed m dataQ.answers) now dataQ r0, ?_, ?_, ?_, ?_⟩
    · rw [rowOf, hps,
        find?_updateFirst (quizRow_module_id _ _ now dataQ), hr0]
      rfl
    · rw [quizRow_quiz_score]
    · rw [quizRow_quiz_passed, hfail]
    · rw [quizRow_is_completed, hfail, Bool.or_false]
      exact hr0c

/-- Witness for C10: all three conjuncts - a text completion keeps an
earlier completed row completed, a failed resubmission keeps the passed
quiz row completed, and the failed resubmission on the COMPLETED
reachable assignment overwrites the quiz fields (score 0, failed) while
status and percentage stay put. -/
theorem c10_completion_monotone_witness :
    rowCompleted stateThreeTwo.progress 1 = true ∧
    rowCompleted stateQuizResubmit.progress 1 = true ∧
    ((∃ r, rowOf stateQuizResubmit.progress 1 = some r ∧
        r.quiz_score = some (quizScore quizModule []) ∧
        r.quiz_passed = some false ∧
        r.is_completed = true) ∧
      stateQuizResubmit.assignment.status =
        stateQuizPassed.assignment.status ∧
      stateQuizResubmit.assignment.completion_percentage =
        stateQuizPassed.assignment.completion_percentage) :=
  ⟨(c10_completion_monotone stateThreeOne 2 7 1 ⟨none, none⟩ ⟨[], none⟩
      5 stateThreeTwo stateThreeOne).1 (by decide) (by decide),
   (c10_completion_monotone stateQuizPassed 1 7 1 ⟨none, none⟩
      ⟨[], none⟩ 20 stateQuizPassed stateQuizResubmit).2.1 (by decide)
      (by decide),
   (c10_completion_monotone stateQuizPassed 1 7 1 ⟨none, none⟩
      ⟨[], none⟩ 20 stateQuizPassed stateQuizResubmit).2.2
      stateQuizPassed_reachable (by decide) (by decide) quizModule
      (by decide) (by decide)⟩

end Habilitat
